import Mathlib

/-!
Shallow embedding of `GoogleScraper/core.py`: the run-orchestration pipeline
(`main`), the keyword partitioner (`assign_keywords_to_scrapers`), the proxy
assignment of the `sel` dispatch path, the results-handler consumer loop
(`ResultsHandler.run`), and the programmatic entry point
(`scrape_with_config`), together with theorems settling the specification
claims about them.

Conventions: Python strings become `String` (character-level operations are
carried out on `List Char`), Python `None`-or-string options become
`Option String`, raised exceptions become `Except` errors, and the ambient
`Config` object becomes an explicit `Config` structure holding exactly the
options `core.py` reads.  External collaborators (keyword file contents,
loaded proxies, the cache) are passed in as an explicit `Env`.
-/

deriving instance DecidableEq for Except

namespace GoogleScraper

/-- Python `s.split('\x7bsep\x7d')` with separator `'\n'`, on the character
list of the string: split at every newline, keeping empty segments — the
empty string yields one empty segment and a trailing newline yields a
trailing empty segment, exactly as in Python. -/
def splitLines : List Char → List (List Char)
  | [] => [[]]
  | c :: cs =>
    if c = '\n' then [] :: splitLines cs
    else
      match splitLines cs with
      | [] => [[c]]
      | l :: ls => (c :: l) :: ls

/-- Python `str.strip()`: remove whitespace from both ends of a line. -/
def pyStrip (l : List Char) : List Char :=
  ((l.dropWhile Char.isWhitespace).reverse.dropWhile Char.isWhitespace).reverse

/-- Python truthiness of a `None`-or-string configuration value: `None` and
the empty string are falsy, every other string is truthy. -/
def pyTruthyOpt : Option String → Bool
  | none => false
  | some s => s ≠ ""

/-- Chunk a list into consecutive pieces of `n` elements; `fuel` bounds the
recursion and is always instantiated with `l.length`, which is sufficient
fuel whenever `0 < n`. -/
def chunksAux (n : Nat) : Nat → List α → List (List α)
  | _, [] => []
  | 0, l => [l]
  | fuel + 1, l => l.take n :: chunksAux n fuel (l.drop n)

/-- Modelled from the spec: `grouper(iterable, n, fillvalue=None)` is imported
from `GoogleScraper/utils.py`, which is not among the sources; per the spec
(§4.1) the partition step cuts the keyword sequence into fixed-size groups
and pads the final group(s) with an explicit placeholder, modelled here as
`none` (the `fillvalue=None` of the call site at `core.py:139`). -/
def grouper (n : Nat) (l : List α) : List (List (Option α)) :=
  (chunksAux n l.length l).map fun c => c.map some ++ List.replicate (n - c.length) none

/-- The configuration options `core.py` reads from the global `Config`.
`Option String` fields are `none` when the option is unset (Python `None`);
`keywords_raw` carries the raw `SCRAPING.keywords` string together with its
`''` fallback (`core.py:170`); the numeric fields carry the effective values
returned by `getint` (defaults already applied). -/
structure Config where
  view_config : Bool
  fix_cache_names : Bool
  keyword : Option String
  keywords_raw : String
  keyword_file : Option String
  num_results_per_page : Nat
  search_type : String
  scrapemethod : String
  num_browser_instances : Nat
  num_threads : Nat
  use_own_ip : Bool
  commit_interval : Nat
  simulate : Bool
  do_caching : Bool
deriving DecidableEq

/-- The external collaborators consulted by `main`: the keyword file's
contents (`none` when the file does not exist, `core.py:184`), the proxies
delivered by the proxy-source collaborators (`core.py:196-201`), and the
keywords already present in the cache (backing the spec-modelled cache
collaborator below). -/
structure Env where
  kwfileContents : Option String
  proxies : List String
  cached : List String
deriving DecidableEq

/-- The ways `main` can terminate exceptionally: `invalidConfiguration`
models a raised `InvalidConfigurationException`; `zeroDivision` models the
`ZeroDivisionError` produced by `len(all_keywords)//num_scrapers` when the
worker count is `0` (`core.py:139`). -/
inductive MainError
  | invalidConfiguration (msg : String)
  | zeroDivision
deriving DecidableEq

/-- The terminal outcomes of a run of `main`.  A `selRun` carries, per
worker, its keyword group and the proxy-pool lookup performed at
`core.py:249` (outer `Option` is the list-index lookup, inner
`Option String` is the proxy itself where `none` is the local-egress
sentinel appended for `use_own_ip`).  `httpAsyncNoop` is the silent `pass`
of the `http_async` branch (`core.py:282-283`). -/
inductive Outcome
  | viewConfig
  | fixCacheNames
  | simulated
  | selRun (jobs : List (List (Option String) × Option (Option String)))
  | httpRun (groups : List (List (Option String)))
  | httpAsyncNoop
deriving DecidableEq

/-- `set(Config['SCRAPING'].get('keywords', '').split('\n'))` at
`core.py:170`: split the raw option on newlines (no stripping) and apply set
semantics (modelled as `List.dedup`; only membership and cardinality of the
result matter downstream). -/
def pySplitKeywords (raw : String) : List String :=
  ((splitLines raw.toList).map fun l => String.mk l).dedup

/-- `set([line.strip() for line in open(kwfile).read().split('\n')])` at
`core.py:188`: split the file contents on newlines, strip each line, and
apply set semantics. -/
def kwFileKeywords (content : String) : List String :=
  ((splitLines content.toList).map fun l => String.mk (pyStrip l)).dedup

/-- The guard of `core.py:174`:
`if not (keyword or keywords) and not kwfile`.  `keywords` here is the set
built at line 170, whose Python truthiness is its non-emptiness. -/
def noKeywordCondition (cfg : Config) : Bool :=
  !(pyTruthyOpt cfg.keyword || !(pySplitKeywords cfg.keywords_raw).isEmpty)
    && !pyTruthyOpt cfg.keyword_file

/-- `core.py:182-188`: choose the working keyword collection — the single
keyword if truthy, else the line-170 set — and, when a keyword file is
configured, require it to exist and load the (deduplicated, stripped) lines
from it instead. -/
def postValidationKeywords (cfg : Config) (env : Env) :
    Except MainError (List String) :=
  let kws :=
    if pyTruthyOpt cfg.keyword then [cfg.keyword.getD ""]
    else pySplitKeywords cfg.keywords_raw
  if pyTruthyOpt cfg.keyword_file then
    match env.kwfileContents with
    | none => .error (.invalidConfiguration "The keyword file does not exist.")
    | some content => .ok (kwFileKeywords content)
  else .ok kws

/-- Modelled from the spec: `parse_all_cached_files`
(`GoogleScraper/caching.py`, not among the sources) is described in §4.4
step 8 as removing from the remaining-work set the keywords whose results
are already cached; when caching is disabled the remaining set equals the
working set (`core.py:222-226`). -/
def cacheRemaining (cfg : Config) (env : Env) (kws : List String) : List String :=
  if cfg.do_caching then kws.filter (fun k => !(env.cached.contains k)) else kws

/-- `assign_keywords_to_scrapers` (`core.py:115-144`): pick the worker count
for the configured scrape method (any other method gives `0`); when there
are more keywords than workers, chunk them into groups of
`len(all_keywords) // num_scrapers` via `grouper` (a worker count of `0`
makes that division raise `ZeroDivisionError`); otherwise one singleton
group per keyword. -/
def assign_keywords_to_scrapers (cfg : Config) (all_keywords : List String) :
    Except MainError (List (List (Option String))) :=
  let num_scrapers : Nat :=
    if cfg.scrapemethod = "sel" then cfg.num_browser_instances
    else if cfg.scrapemethod = "http" then cfg.num_threads
    else 0
  if num_scrapers < all_keywords.length then
    if num_scrapers = 0 then .error .zeroDivision
    else .ok (grouper (all_keywords.length / num_scrapers) all_keywords)
  else .ok (all_keywords.map fun kw => [some kw])

/-- `math.ceil(a / b)` for the natural quantities of `core.py:247`, as the
usual natural-number ceiling division `(a + b - 1) / b`. -/
def ceilDiv (a b : Nat) : Nat := (a + b - 1) / b

/-- `chunks_per_proxy = math.ceil(len(kwgroups)/len(proxies))`
(`core.py:247`). -/
def chunks_per_proxy (G P : Nat) : Nat := ceilDiv G P

/-- The proxy-pool index assigned to worker `i` at `core.py:249`:
`i // chunks_per_proxy`. -/
def proxyIndex (G P i : Nat) : Nat := i / chunks_per_proxy G P

/-- `core.py:242-245`: when `use_own_ip` is set, append the local-egress
sentinel `None` to the proxy pool (even when proxies were configured);
otherwise an empty pool is a configuration error. -/
def selProxyPool (use_own_ip : Bool) (proxies : List String) :
    Except MainError (List (Option String)) :=
  if use_own_ip then .ok (proxies.map some ++ [none])
  else if proxies.isEmpty then
    .error (.invalidConfiguration
      "No proxies available and using own IP is prohibited by configuration. Turning down.")
  else .ok (proxies.map some)

/-- The per-worker job construction of `core.py:248-249`: worker `i` gets
keyword group `i` and the pool entry at index `i // chunks_per_proxy`
(looked up with `get?`, mirroring the Python list indexing). -/
def selJobs (pool : List (Option String)) (kwgroups : List (List (Option String))) :
    List (List (Option String) × Option (Option String)) :=
  kwgroups.enum.map fun p =>
    (p.2, pool.get? (proxyIndex kwgroups.length pool.length p.1))

/-- The dispatch-by-method block of `core.py:231-285`.  Note `http_async`
falls into a bare `pass` (`core.py:282-283`), so it produces a successful
no-op outcome rather than an error. -/
def dispatch (cfg : Config) (env : Env)
    (kwgroups : List (List (Option String))) : Except MainError Outcome :=
  if cfg.scrapemethod = "sel" then
    match selProxyPool cfg.use_own_ip env.proxies with
    | .error e => .error e
    | .ok pool => .ok (.selRun (selJobs pool kwgroups))
  else if cfg.scrapemethod = "http" then .ok (.httpRun kwgroups)
  else if cfg.scrapemethod = "http_async" then .ok .httpAsyncNoop
  else .error (.invalidConfiguration "No such scrapemethod. Use http or sel")

/-- The list of valid search types of `core.py:203`. -/
def validSearchTypes : List String := ["normal", "video", "news", "image"]

/-- The orchestration pipeline of `main` (`core.py:146-285`), in source
order: the view-config early return; the (ineffective, see `C4`) missing-
keyword guard of line 174; the fix-cache-names early return; keyword-file
handling; the results-per-page cap of line 193; the search-type check of
lines 203-205, which CONSTRUCTS an `InvalidConfigurationException` but does
not `raise` it and is therefore a no-op here; the simulate early return;
cache reconciliation; keyword partitioning; and dispatch. -/
def mainRun (cfg : Config) (env : Env) : Except MainError Outcome :=
  if cfg.view_config then .ok .viewConfig
  else if noKeywordCondition cfg then
    .error (.invalidConfiguration "You must specify a keyword file")
  else if cfg.fix_cache_names then .ok .fixCacheNames
  else
    match postValidationKeywords cfg env with
    | .error e => .error e
    | .ok kws =>
      if 100 < cfg.num_results_per_page then
        .error (.invalidConfiguration
          "Not more that 100 results per page available for searches.")
      else if cfg.simulate then .ok .simulated
      else
        match assign_keywords_to_scrapers cfg (cacheRemaining cfg env kws) with
        | .error e => .error e
        | .ok kwgroups => dispatch cfg env kwgroups

/-- An element of the result queue.  Workers enqueue `(serp_page, links)`
tuples and the orchestrator enqueues the `all_processed_sig` string
(`core.py:261`); since in Python a tuple never compares equal to a string,
the sentinel is a distinguished value, modelled as a separate constructor. -/
inductive QItem (β : Type) where
  | batch : β → QItem β
  | sig : QItem β
deriving DecidableEq

/-- The observable state of a `ResultsHandler`: the batches inserted so far
(in order), the number of inserted batches covered by the most recent
`conn.commit()` (`0` before any commit), the number of commits performed,
and the loop counter `i` of `core.py:71`. -/
structure HState (β : Type) where
  persisted : List β
  committed : Nat
  commitCount : Nat
  i : Nat
deriving DecidableEq

/-- The handler state before any batch is processed. -/
def initState (β : Type) : HState β := ⟨[], 0, 0, 0⟩

/-- Processing of one batch by `ResultsHandler.run` (`core.py:78-83`):
insert it, then commit when `i > 0 and i % commit_interval == 0`, then
increment `i`. -/
def handlerStep (ci : Nat) (s : HState β) (b : β) : HState β :=
  let p := s.persisted ++ [b]
  if 0 < s.i ∧ s.i % ci = 0 then
    { persisted := p, committed := p.length, commitCount := s.commitCount + 1,
      i := s.i + 1 }
  else
    { s with persisted := p, i := s.i + 1 }

/-- The consumer loop of `ResultsHandler.run` (`core.py:69-83`) over the
sequence of items it dequeues (the FIFO queue contents in dequeue order):
stop as soon as the sentinel is dequeued, otherwise process the batch and
continue.  An exhausted list means the loop is still blocked on `get` with
nothing modelled to arrive; the state reached so far is returned. -/
def handlerRun (ci : Nat) : List (QItem β) → HState β → HState β
  | [], s => s
  | .sig :: _, s => s
  | .batch b :: rest, s => handlerRun ci rest (handlerStep ci s b)

/-- The Python runtime errors relevant to `scrape_with_config`. -/
inductive PyError
  | typeError
  | valueError
deriving DecidableEq

/-- The keyword parameters accepted by `def main(return_results=True)`
(`core.py:146`). -/
def mainParams : List String := ["return_results"]

/-- Python call semantics for `main(**kwargs)`: the call raises `TypeError`
unless every keyword argument is a parameter of `main`'s signature. -/
def callMain (kwargs : List String) : Except PyError Unit :=
  if kwargs.all (fun k => mainParams.contains k) then .ok () else .error .typeError

/-- `scrape_with_config(config, **kwargs)` (`core.py:18-31`): reject a
non-dict config with `ValueError`, otherwise call
`main(return_results=True, force_reload=False, **kwargs)`. -/
def scrape_with_config (configIsDict : Bool) (kwargs : List String) :
    Except PyError Unit :=
  if configIsDict then callMain (["return_results", "force_reload"] ++ kwargs)
  else .error .valueError

/-- The final handler state after a run of `ResultsHandler.run` over a queue
that delivers the batches `bs` (in FIFO order) followed by the termination
sentinel. -/
def handlerFinal (β : Type) (ci : Nat) (bs : List β) : HState β :=
  handlerRun ci (bs.map QItem.batch ++ [QItem.sig]) (initState β)

/-- A baseline configuration used for the concrete scenarios: `sel` method,
one browser instance, own IP allowed, keyword `k`, everything else off. -/
def baseCfg : Config :=
  { view_config := false, fix_cache_names := false, keyword := some "k",
    keywords_raw := "", keyword_file := none, num_results_per_page := 10,
    search_type := "normal", scrapemethod := "sel", num_browser_instances := 1,
    num_threads := 1, use_own_ip := true, commit_interval := 10,
    simulate := false, do_caching := false }

/-- A baseline environment: no keyword file, no proxies, empty cache. -/
def baseEnv : Env := { kwfileContents := none, proxies := [], cached := [] }

/-! ### Helper lemmas -/

theorem splitLines_ne_nil (l : List Char) : splitLines l ≠ [] := by
  cases l with
  | nil => simp [splitLines]
  | cons c cs =>
    unfold splitLines
    split
    · simp
    · rcases h : splitLines cs with _ | ⟨t, ts⟩ <;> simp [h]

theorem pySplitKeywords_ne_nil (raw : String) : pySplitKeywords raw ≠ [] := by
  unfold pySplitKeywords
  rw [Ne, List.dedup_eq_nil, List.map_eq_nil_iff]
  exact splitLines_ne_nil _

theorem noKeywordCondition_false (cfg : Config) : noKeywordCondition cfg = false := by
  unfold noKeywordCondition
  cases hpe : pySplitKeywords cfg.keywords_raw with
  | nil => exact absurd hpe (pySplitKeywords_ne_nil _)
  | cons a l => simp [hpe]

theorem handlerStep_persisted (ci : Nat) (s : HState β) (b : β) :
    (handlerStep ci s b).persisted = s.persisted ++ [b] := by
  unfold handlerStep
  split <;> rfl

theorem handlerStep_i (ci : Nat) (s : HState β) (b : β) :
    (handlerStep ci s b).i = s.i + 1 := by
  unfold handlerStep
  split <;> rfl

theorem foldl_handlerStep_persisted (ci : Nat) (bs : List β) (s : HState β) :
    (bs.foldl (handlerStep ci) s).persisted = s.persisted ++ bs := by
  induction bs generalizing s with
  | nil => simp
  | cons b bs ih => simp [List.foldl_cons, ih, handlerStep_persisted]

theorem handlerRun_batches (ci : Nat) (bs : List β) (tail : List (QItem β))
    (s : HState β) :
    handlerRun ci (bs.map QItem.batch ++ tail) s
      = handlerRun ci tail (bs.foldl (handlerStep ci) s) := by
  induction bs generalizing s with
  | nil => rfl
  | cons b bs ih => simpa [handlerRun] using ih (handlerStep ci s b)

theorem handlerStep_eq (ci : Nat) (s : HState β) (b : β) :
    handlerStep ci s b
      = if 0 < s.i ∧ s.i % ci = 0 then
          ⟨s.persisted ++ [b], (s.persisted ++ [b]).length, s.commitCount + 1,
            s.i + 1⟩
        else ⟨s.persisted ++ [b], s.committed, s.commitCount, s.i + 1⟩ := by
  unfold handlerStep
  split <;> rfl

theorem div_pred_succ_of_commit (ci n : Nat) (hpos : 0 < n)
    (hmod : n % ci = 0) : n / ci = (n - 1) / ci + 1 := by
  have h1 : n - 1 + 1 = n := Nat.sub_add_cancel hpos
  conv_lhs => rw [← h1]
  exact Nat.succ_div_of_dvd (by rw [h1]; exact Nat.dvd_of_mod_eq_zero hmod)

theorem div_pred_eq_of_no_commit (ci n : Nat) (h : ¬(0 < n ∧ n % ci = 0)) :
    n / ci = (n - 1) / ci := by
  rcases Nat.eq_zero_or_pos n with h0 | hpos
  · simp [h0]
  · have hnd : ¬ ci ∣ n := fun hd => h ⟨hpos, Nat.eq_zero_of_dvd_of_lt hd
      |> fun _ => Nat.mod_eq_zero_of_dvd hd⟩
    have h1 : n - 1 + 1 = n := Nat.sub_add_cancel hpos
    conv_lhs => rw [← h1]
    exact Nat.succ_div_of_not_dvd (by rwa [h1])

theorem foldl_handler_commit_spec (ci : Nat) (bs : List β) :
    (bs.foldl (handlerStep ci) (initState β)).i = bs.length
    ∧ (bs.foldl (handlerStep ci) (initState β)).commitCount = (bs.length - 1) / ci
    ∧ (bs.foldl (handlerStep ci) (initState β)).committed
        = (if (bs.length - 1) / ci = 0 then 0
           else ((bs.length - 1) / ci) * ci + 1) := by
  induction bs using List.reverseRecOn with
  | nil => simp [initState]
  | append_singleton bs b ih =>
    obtain ⟨hi, hcc, hcom⟩ := ih
    have hlen : (bs.foldl (handlerStep ci) (initState β)).persisted.length
        = bs.length := by
      rw [foldl_handlerStep_persisted]; simp [initState]
    rw [List.foldl_append, List.foldl_cons, List.foldl_nil, handlerStep_eq, hi]
    simp only [List.length_append, List.length_singleton, Nat.add_sub_cancel]
    by_cases hc : 0 < bs.length ∧ bs.length % ci = 0
    · have hdvd : ci ∣ bs.length := Nat.dvd_of_mod_eq_zero hc.2
      have hdiv : bs.length / ci = (bs.length - 1) / ci + 1 :=
        div_pred_succ_of_commit ci bs.length hc.1 hc.2
      have hmul : bs.length / ci * ci = bs.length := Nat.div_mul_cancel hdvd
      have hq : bs.length / ci ≠ 0 := by rw [hdiv]; exact Nat.succ_ne_zero _
      rw [if_pos hc]
      refine ⟨rfl, ?_, ?_⟩
      · show (bs.foldl (handlerStep ci) (initState β)).commitCount + 1
            = bs.length / ci
        rw [hcc]
        exact hdiv.symm
      · show (bs.foldl (handlerStep ci) (initState β)).persisted.length + 1 = _
        rw [if_neg hq, hlen, hmul]
    · have hdiv : bs.length / ci = (bs.length - 1) / ci :=
        div_pred_eq_of_no_commit ci bs.length hc
      rw [if_neg hc, hdiv]
      exact ⟨rfl, hcc, hcom⟩

theorem chunksAux_length (n : Nat) (hn : 0 < n) :
    ∀ (fuel : Nat) (l : List α), l.length ≤ fuel →
      (chunksAux n fuel l).length = (l.length + n - 1) / n := by
  intro fuel
  induction fuel with
  | zero =>
    intro l hl
    have h0 : l = [] := List.length_eq_zero.mp (Nat.le_zero.mp hl)
    subst h0
    have h1 : (n - 1) / n = 0 := Nat.div_eq_of_lt (by omega)
    simpa [chunksAux] using h1.symm
  | succ f ih =>
    intro l hl
    cases l with
    | nil =>
      have h1 : (n - 1) / n = 0 := Nat.div_eq_of_lt (by omega)
      simpa [chunksAux] using h1.symm
    | cons a as =>
      show ((a :: as).take n :: chunksAux n f ((a :: as).drop n)).length = _
      rw [List.length_cons, ih ((a :: as).drop n)
        (by simp only [List.length_drop, List.length_cons]
            simp only [List.length_cons] at hl
            omega)]
      simp only [List.length_drop, List.length_cons]
      rcases le_or_lt n (as.length + 1) with hcase | hcase
      · have h1 : as.length + 1 - n + n - 1 = as.length := by omega
        have h2 : as.length + 1 + n - 1 = as.length + n := by omega
        rw [h1, h2, Nat.add_div_right _ hn]
      · have h1 : as.length + 1 - n = 0 := by omega
        have hle : 1 ≤ (as.length + 1 + n - 1) / n :=
          (Nat.one_le_div_iff hn).mpr (by omega)
        have hlt : (as.length + 1 + n - 1) / n < 2 :=
          (Nat.div_lt_iff_lt_mul hn).mpr (by omega)
        have h2 : (as.length + 1 + n - 1) / n = 1 :=
          Nat.le_antisymm (Nat.lt_succ_iff.mp hlt) hle
        have h3 : (n - 1) / n = 0 := Nat.div_eq_of_lt (by omega)
        rw [h1, h2]
        simpa using h3

theorem chunksAux_mem_le (n : Nat) (hn : 0 < n) :
    ∀ (fuel : Nat) (l : List α), l.length ≤ fuel →
      ∀ c ∈ chunksAux n fuel l, c.length ≤ n := by
  intro fuel
  induction fuel with
  | zero =>
    intro l hl c hc
    have h0 : l = [] := List.length_eq_zero.mp (Nat.le_zero.mp hl)
    subst h0
    simp [chunksAux] at hc
  | succ f ih =>
    intro l hl c hc
    cases l with
    | nil => simp [chunksAux] at hc
    | cons a as =>
      have hstep : chunksAux n (f + 1) (a :: as)
          = (a :: as).take n :: chunksAux n f ((a :: as).drop n) := rfl
      rw [hstep] at hc
      rcases List.mem_cons.mp hc with h | h
      · subst h
        simp [List.length_take]
      · refine ih _ ?_ c h
        simp only [List.length_drop, List.length_cons]
        simp only [List.length_cons] at hl
        omega

theorem grouper_length (n : Nat) (hn : 0 < n) (l : List α) :
    (grouper n l).length = (l.length + n - 1) / n := by
  unfold grouper
  rw [List.length_map]
  exact chunksAux_length n hn l.length l le_rfl

theorem grouper_mem_length (n : Nat) (hn : 0 < n) (l : List α) :
    ∀ g ∈ grouper n l, g.length = n := by
  intro g hg
  unfold grouper at hg
  rcases List.mem_map.mp hg with ⟨c, hc, rfl⟩
  have hle := chunksAux_mem_le n hn l.length l le_rfl c hc
  simp only [List.length_append, List.length_map, List.length_replicate]
  omega

theorem lt_mul_div_succ (a b : Nat) (hb : 0 < b) : a < b * (a / b + 1) := by
  have h1 := Nat.div_add_mod a b
  have h2 := Nat.mod_lt a hb
  calc a = b * (a / b) + a % b := h1.symm
    _ < b * (a / b) + b := Nat.add_lt_add_left h2 _
    _ = b * (a / b + 1) := by rw [Nat.mul_succ]

theorem le_mul_ceilDiv (G P : Nat) (hP : 0 < P) : G ≤ P * ceilDiv G P := by
  rcases Nat.eq_zero_or_pos G with hG | hG
  · subst hG; exact Nat.zero_le _
  · have h := lt_mul_div_succ (G + P - 1) P hP
    unfold ceilDiv
    set q := (G + P - 1) / P with hq
    rw [Nat.mul_succ] at h
    have h4 : G - 1 < P * q := by
      have heq : G + P - 1 = G - 1 + P := by omega
      rw [heq] at h
      exact Nat.lt_of_add_lt_add_right h
    have h5 := Nat.succ_le_of_lt h4
    rwa [Nat.succ_eq_add_one, Nat.sub_add_cancel hG] at h5

theorem ceilDiv_pos (G P : Nat) (hG : 0 < G) (hP : 0 < P) : 0 < ceilDiv G P := by
  unfold ceilDiv
  exact (Nat.one_le_div_iff hP).mpr (by omega)

/-- The seven-keyword list of the end-to-end scenario. -/
def kws7 : List String := ["a", "b", "c", "d", "e", "f", "g"]

/-- The three-worker `sel` configuration of the end-to-end scenario. -/
def cfg3 : Config := { baseCfg with num_browser_instances := 3 }

/-! ### Claim theorems -/

/-- C1: in the `sel` dispatch path, for any number of scrape jobs enqueuing
finitely many result batches, the handler persists every enqueued batch
strictly before it observes the termination sentinel, and upon dequeuing the
sentinel it stops and never processes another item.  The queue is modelled
by its dequeue sequence: since the orchestrator joins every producer before
putting the sentinel (`core.py:257-261`) and the queue is FIFO, the sentinel
sits after every batch; `bs` is the arbitrary interleaving of all producers'
batches and `rest` is anything that could sit behind the sentinel.  The
conclusion: the final state has persisted exactly `bs`, and the run is
unchanged if everything after the sentinel is discarded (nothing past the
sentinel is ever processed). -/
theorem c1_sel_queue_drained_before_sentinel (β : Type) (ci : Nat)
    (bs : List β) (rest : List (QItem β)) :
    (handlerRun ci (bs.map QItem.batch ++ QItem.sig :: rest)
        (initState β)).persisted = bs
    ∧ handlerRun ci (bs.map QItem.batch ++ QItem.sig :: rest) (initState β)
        = handlerRun ci (bs.map QItem.batch ++ [QItem.sig]) (initState β) := by
  constructor
  · rw [handlerRun_batches]
    show (bs.foldl (handlerStep ci) (initState β)).persisted = bs
    rw [foldl_handlerStep_persisted]
    simp [initState]
  · rw [handlerRun_batches, handlerRun_batches]
    rfl

/-- C8 counterexample: with `commit_interval = 2`, after the handler has
processed exactly `2` batches no commit has occurred (the claim says one
must have), and `2` processed batches are uncommitted, exceeding the claimed
bound of `commit_interval - 1 = 1`.  The first commit only happens while
processing batch `commit_interval + 1`, because `core.py:80` tests the loop
counter `i` before incrementing it. -/
theorem c8_counterexample :
    (handlerFinal Nat 2 [0, 0]).persisted.length = 2
    ∧ (handlerFinal Nat 2 [0, 0]).commitCount = 0
    ∧ ¬((handlerFinal Nat 2 [0, 0]).persisted.length
          - (handlerFinal Nat 2 [0, 0]).committed ≤ 2 - 1) := by
  decide

/-- C8 amended: for `commit_interval = ci > 0`, after processing `n` batches
exactly `(n - 1) / ci` commits have occurred — so the first commit happens
only after batch `ci + 1`, and after exactly `ci` batches no commit has
occurred; at most `ci` (not `ci - 1`) processed batches are uncommitted at
any point. -/
theorem c8_commit_cadence_amended (β : Type) (ci : Nat) (hci : 0 < ci)
    (bs : List β) :
    (handlerFinal β ci bs).persisted = bs
    ∧ (handlerFinal β ci bs).commitCount = (bs.length - 1) / ci
    ∧ (handlerFinal β ci bs).persisted.length - (handlerFinal β ci bs).committed ≤ ci
    ∧ (bs.length = ci → (handlerFinal β ci bs).commitCount = 0) := by
  have hrun : handlerFinal β ci bs = bs.foldl (handlerStep ci) (initState β) := by
    unfold handlerFinal
    rw [handlerRun_batches]
    rfl
  obtain ⟨hi, hcc, hcom⟩ := foldl_handler_commit_spec ci bs
  have hper : (handlerFinal β ci bs).persisted = bs := by
    rw [hrun, foldl_handlerStep_persisted]; simp [initState]
  refine ⟨hper, by rw [hrun]; exact hcc, ?_, ?_⟩
  · rw [hper, hrun, hcom]
    by_cases hq : (bs.length - 1) / ci = 0
    · rw [if_pos hq]
      have : bs.length - 1 < ci := (Nat.div_eq_zero_iff hci).mp hq
      omega
    · rw [if_neg hq]
      have hdm := Nat.div_add_mod (bs.length - 1) ci
      have hlt := Nat.mod_lt (bs.length - 1) hci
      rw [Nat.mul_comm]
      set t := ci * ((bs.length - 1) / ci) with ht
      set r := (bs.length - 1) % ci with hr
      omega
  · intro hn
    rw [hrun, hcc, hn]
    exact Nat.div_eq_of_lt (by omega)

/-- C9: `scrape_with_config` always calls
`main(return_results=True, force_reload=False, **kwargs)` (`core.py:31`) but
`main`'s signature accepts only `return_results` (`core.py:146`), so for
every dict-valued config the call raises `TypeError` and the entry point can
never return a storage handle. -/
theorem c9_scrape_with_config_type_error (kwargs : List String) :
    scrape_with_config true kwargs = .error .typeError := by
  have h : ((["return_results", "force_reload"] ++ kwargs).all
      fun k => mainParams.contains k) = false := by
    simp only [List.cons_append, List.nil_append, List.all_cons,
      Bool.and_eq_false_iff]
    right
    left
    decide
  unfold scrape_with_config callMain
  rw [if_pos rfl, h]
  rfl

/-- C10: in the `sel` dispatch path with `use_own_ip` enabled, the
local-egress sentinel `None` is appended to the proxy pool even when the
configured proxies `ps` are non-empty (`core.py:242-243`), and every worker
in the final contiguous chunk — those whose pool index `i // chunks_per_proxy`
equals `ps.length`, the position of the sentinel — is assigned no proxy. -/
theorem c10_use_own_ip_appends_local_egress (ps : List String) (_hps : ps ≠ [])
    (G : Nat) :
    selProxyPool true ps = .ok (ps.map some ++ [none])
    ∧ ∀ i, i < G → proxyIndex G (ps.length + 1) i = ps.length →
        (ps.map some ++ [none]).get? (proxyIndex G (ps.length + 1) i)
          = some none := by
  refine ⟨rfl, ?_⟩
  intro i _ hj
  rw [hj, List.get?_eq_getElem?, List.getElem?_append_right (by simp)]
  simp

/-- C10 witness: one configured proxy, three keyword groups — worker `2`
lands in the final chunk and scrapes without a proxy. -/
theorem c10_use_own_ip_appends_local_egress_witness :
    selProxyPool true ["p"] = .ok (["p"].map some ++ [none])
    ∧ ∀ i, i < 3 → proxyIndex 3 (["p"].length + 1) i = ["p"].length →
        (["p"].map some ++ [none]).get? (proxyIndex 3 (["p"].length + 1) i)
          = some none :=
  c10_use_own_ip_appends_local_egress ["p"] (by decide) 3

/-- C5 counterexample: loading a keyword file with contents `"a\na\nb\n"`
yields a working set of three keywords, among them the empty string — not
the claimed two-element set, and not a set of non-empty keywords. -/
theorem c5_counterexample :
    "" ∈ kwFileKeywords "a\na\nb\n" ∧ (kwFileKeywords "a\na\nb\n").length = 3 := by
  decide

/-- C5 amended: the keyword file `"a\na\nb\n"` yields the working set
consisting exactly of `a`, `b` and the empty keyword — duplicates are
removed by set semantics (the result of loading any file is duplicate-free),
but the empty line produced by the trailing newline is kept, so not every
member is non-empty. -/
theorem c5_dedup_amended :
    kwFileKeywords "a\na\nb\n" = ["a", "b", ""]
    ∧ (∀ x, x ∈ kwFileKeywords "a\na\nb\n" ↔ (x = "a" ∨ x = "b" ∨ x = ""))
    ∧ ∀ content : String, (kwFileKeywords content).Nodup := by
  have h : kwFileKeywords "a\na\nb\n" = ["a", "b", ""] := by decide
  refine ⟨h, ?_, fun _ => List.nodup_dedup _⟩
  intro x
  rw [h]
  simp

/-- C2 counterexample: 7 keywords with 3 `sel` workers yield 4 groups of
size `7 // 3 = 2` (the last padded with one placeholder), not the claimed 3
groups of size `⌈7/3⌉ = 3`: `core.py:139` passes the floor quotient as the
group SIZE to `grouper`, so the group COUNT comes out as
`⌈7 / (7 // 3)⌉ = 4`. -/
theorem c2_counterexample :
    assign_keywords_to_scrapers cfg3 kws7
      = .ok [[some "a", some "b"], [some "c", some "d"], [some "e", some "f"],
          [some "g", none]]
    ∧ Except.map List.length (assign_keywords_to_scrapers cfg3 kws7)
        ≠ .ok 3 := by
  decide

/-- C2 amended: for the `sel` method with `0 < W < |K|` workers, the
partition uses group size `n = |K| // W` (floor, not ceiling) and produces
`⌈|K| / n⌉` groups — more than `W` whenever `W` does not divide `|K|` — each
group of length exactly `n` after padding with the placeholder; in
particular 7 keywords with 3 workers yield 4 groups of size 2. -/
theorem c2_partition_amended (cfg : Config) (K : List String)
    (hm : cfg.scrapemethod = "sel") (hW : 0 < cfg.num_browser_instances)
    (hK : cfg.num_browser_instances < K.length) :
    assign_keywords_to_scrapers cfg K
      = .ok (grouper (K.length / cfg.num_browser_instances) K)
    ∧ (grouper (K.length / cfg.num_browser_instances) K).length
        = ceilDiv K.length (K.length / cfg.num_browser_instances)
    ∧ ∀ g ∈ grouper (K.length / cfg.num_browser_instances) K,
        g.length = K.length / cfg.num_browser_instances := by
  have hn : 0 < K.length / cfg.num_browser_instances :=
    (Nat.one_le_div_iff hW).mpr (Nat.le_of_lt hK)
  refine ⟨?_, ?_, grouper_mem_length _ hn K⟩
  · unfold assign_keywords_to_scrapers
    rw [hm]
    simp [hK, Nat.pos_iff_ne_zero.mp hW]
  · simpa [ceilDiv] using grouper_length _ hn K

/-- C2 amended, witness: the concrete 7-keyword, 3-worker scenario. -/
theorem c2_partition_amended_witness :
    assign_keywords_to_scrapers cfg3 kws7
      = .ok (grouper (kws7.length / cfg3.num_browser_instances) kws7)
    ∧ (grouper (kws7.length / cfg3.num_browser_instances) kws7).length
        = ceilDiv kws7.length (kws7.length / cfg3.num_browser_instances)
    ∧ ∀ g ∈ grouper (kws7.length / cfg3.num_browser_instances) kws7,
        g.length = kws7.length / cfg3.num_browser_instances :=
  c2_partition_amended cfg3 kws7 rfl (by decide) (by decide)

/-- C3 counterexample: with `G = 5` worker groups and `P = 4` proxies we
have `G ≥ P`, yet no worker is assigned proxy index `3`
(`chunks_per_proxy = ⌈5/4⌉ = 2`, so workers map to indices `0,0,1,1,2`) —
refuting the claimed “every proxy is used if `G ≥ P`” direction. -/
theorem c3_counterexample : 4 ≤ 5 ∧ ∀ i, i < 5 → proxyIndex 5 4 i ≠ 3 := by
  decide

/-- C3 amended: for `G ≥ 1` groups and `P ≥ 1` proxies, worker `i` gets pool
index `i // ⌈G/P⌉`, which is a valid index and gives each proxy a contiguous
run of workers of length at most `⌈G/P⌉`; every proxy is used by some worker
iff `(P - 1) · ⌈G/P⌉ < G` (if every proxy is used then `G ≥ P`, but the
converse fails, e.g. at `G = 5`, `P = 4`). -/
theorem c3_proxy_assignment_amended (G P : Nat) (hG : 0 < G) (hP : 0 < P) :
    (∀ i, i < G →
        proxyIndex G P i < P
        ∧ proxyIndex G P i * chunks_per_proxy G P ≤ i
        ∧ i < proxyIndex G P i * chunks_per_proxy G P + chunks_per_proxy G P)
    ∧ ((∀ j, j < P → ∃ i, i < G ∧ proxyIndex G P i = j)
        ↔ (P - 1) * chunks_per_proxy G P < G)
    ∧ ((∀ j, j < P → ∃ i, i < G ∧ proxyIndex G P i = j) → P ≤ G) := by
  have hc : 0 < chunks_per_proxy G P := ceilDiv_pos G P hG hP
  have hGle : G ≤ P * chunks_per_proxy G P := le_mul_ceilDiv G P hP
  have hforward : (∀ j, j < P → ∃ i, i < G ∧ proxyIndex G P i = j)
      → (P - 1) * chunks_per_proxy G P < G := by
    intro hall
    obtain ⟨i, hiG, hij⟩ := hall (P - 1) (by omega)
    have h1 : (P - 1) * chunks_per_proxy G P ≤ i := by
      rw [← hij]
      exact Nat.div_mul_le_self i _
    exact Nat.lt_of_le_of_lt h1 hiG
  refine ⟨?_, ⟨hforward, ?_⟩, ?_⟩
  · intro i hi
    refine ⟨?_, Nat.div_mul_le_self i _, ?_⟩
    · exact (Nat.div_lt_iff_lt_mul hc).mpr (Nat.lt_of_lt_of_le hi hGle)
    · have h := lt_mul_div_succ i (chunks_per_proxy G P) hc
      rw [Nat.mul_succ, Nat.mul_comm (chunks_per_proxy G P) (i / chunks_per_proxy G P)] at h
      exact h
  · intro hlt j hj
    refine ⟨j * chunks_per_proxy G P, ?_, ?_⟩
    · have h1 : j * chunks_per_proxy G P ≤ (P - 1) * chunks_per_proxy G P :=
        Nat.mul_le_mul_right _ (by omega)
      exact Nat.lt_of_le_of_lt h1 hlt
    · show j * chunks_per_proxy G P / chunks_per_proxy G P = j
      exact Nat.mul_div_cancel j hc
  · intro hall
    have h1 := hforward hall
    have h2 : P - 1 ≤ (P - 1) * chunks_per_proxy G P :=
      Nat.le_mul_of_pos_right _ hc
    omega

/-- C3 amended, witness: `G = 3` groups, `P = 2` proxies —
`chunks_per_proxy = 2`, workers `0,1` use proxy `0`, worker `2` uses
proxy `1`, and `(2-1)·2 = 2 < 3`, so every proxy is used. -/
theorem c3_proxy_assignment_amended_witness :
    (∀ i, i < 3 →
        proxyIndex 3 2 i < 2
        ∧ proxyIndex 3 2 i * chunks_per_proxy 3 2 ≤ i
        ∧ i < proxyIndex 3 2 i * chunks_per_proxy 3 2 + chunks_per_proxy 3 2)
    ∧ ((∀ j, j < 2 → ∃ i, i < 3 ∧ proxyIndex 3 2 i = j)
        ↔ (2 - 1) * chunks_per_proxy 3 2 < 3)
    ∧ ((∀ j, j < 2 → ∃ i, i < 3 ∧ proxyIndex 3 2 i = j) → 2 ≤ 3) :=
  c3_proxy_assignment_amended 3 2 (by decide) (by decide)

/-- The configuration in which no keyword source at all is given. -/
def cfgNoKeywords : Config := { baseCfg with keyword := none }

/-- C4 (code bug): with no single keyword, no keyword list and no keyword
file configured, `main` does NOT raise: the guard at `core.py:174` tests
`not (keyword or keywords)`, but `keywords = set(''.split('\n')) = {''}` is
a non-empty — hence truthy — set, so the guard never fires and the run
proceeds all the way to dispatching a `sel` worker whose keyword group is
the singleton empty string. -/
theorem c4_missing_keywords_not_rejected :
    cfgNoKeywords.keyword = none
    ∧ cfgNoKeywords.keywords_raw = ""
    ∧ cfgNoKeywords.keyword_file = none
    ∧ mainRun cfgNoKeywords baseEnv = .ok (.selRun [([some ""], some none)]) := by
  decide

/-- A configuration whose search type is not among the valid ones. -/
def cfgBadSearchType : Config := { baseCfg with search_type := "shopping" }

/-- C6 (code bug): with an invalid search type the run is NOT rejected:
`core.py:205` constructs `InvalidConfigurationException(...)` but lacks the
`raise` keyword, so the exception object is discarded and the run proceeds
to the `sel` dispatch. -/
theorem c6_invalid_search_type_not_rejected :
    cfgBadSearchType.search_type ∉ validSearchTypes
    ∧ mainRun cfgBadSearchType baseEnv = .ok (.selRun [([some "k"], some none)]) := by
  decide

/-- The `http_async` configuration in which the single keyword is already
cached, so the remaining-work set is empty. -/
def cfgHttpAsyncCached : Config :=
  { baseCfg with scrapemethod := "http_async", do_caching := true }

/-- The environment whose cache already holds the keyword `k`. -/
def envAllCached : Env := { baseEnv with cached := ["k"] }

/-- C7 counterexample: a configuration selecting `http_async` for which the
run completes silently with no error at all — the dispatch branch at
`core.py:282-283` is a bare `pass`, reached here because caching removes
every keyword so the partition step never divides by the zero worker
count. -/
theorem c7_counterexample :
    cfgHttpAsyncCached.scrapemethod = "http_async"
    ∧ mainRun cfgHttpAsyncCached envAllCached = .ok .httpAsyncNoop := by
  decide

/-- C7 amended: selecting `http_async` never fails loudly by design — the
dispatch branch is a silent `pass`.  When the remaining keyword set is
empty the run completes silently; when it is non-empty the run does raise,
but only an incidental `ZeroDivisionError` from
`len(all_keywords)//num_scrapers` with the worker count `0` that
`assign_keywords_to_scrapers` derives for the unknown method
(`core.py:134-139`). -/
theorem c7_http_async_amended (cfg : Config) (env : Env) (kws : List String)
    (hm : cfg.scrapemethod = "http_async")
    (hv : cfg.view_config = false) (hf : cfg.fix_cache_names = false)
    (hs : cfg.simulate = false) (hr : cfg.num_results_per_page ≤ 100)
    (hk : postValidationKeywords cfg env = .ok kws) :
    (cacheRemaining cfg env kws = [] → mainRun cfg env = .ok .httpAsyncNoop)
    ∧ (cacheRemaining cfg env kws ≠ []
        → mainRun cfg env = .error .zeroDivision) := by
  have hnokw := noKeywordCondition_false cfg
  have hr2 : ¬ (100 < cfg.num_results_per_page) := by omega
  have hassign0 : ∀ ks : List String, ks ≠ []
      → assign_keywords_to_scrapers cfg ks = .error .zeroDivision := by
    intro ks hks
    have hlen : 0 < ks.length := List.length_pos.mpr hks
    unfold assign_keywords_to_scrapers
    rw [hm]
    simp [hlen]
  have hassign1 : assign_keywords_to_scrapers cfg [] = .ok [] := by
    unfold assign_keywords_to_scrapers
    rw [hm]
    simp
  have hdisp : dispatch cfg env [] = .ok .httpAsyncNoop := by
    unfold dispatch
    rw [hm]
    simp
  constructor
  · intro hrem
    unfold mainRun
    simp only [hv, hf, hs, hnokw, Bool.false_eq_true, if_false, hk, hrem,
      hassign1, hr2]
    exact hdisp
  · intro hrem
    unfold mainRun
    simp only [hv, hf, hs, hnokw, Bool.false_eq_true, if_false, hk,
      hassign0 _ hrem, hr2]

/-- The `http_async` configuration with caching off, so the keyword `k`
remains to be scraped. -/
def cfgHttpAsync : Config := { baseCfg with scrapemethod := "http_async" }

/-- C7 amended, witness: with keyword `k` remaining, selecting `http_async`
crashes with the division-by-zero error. -/
theorem c7_http_async_amended_witness :
    (cacheRemaining cfgHttpAsync baseEnv ["k"] = []
        → mainRun cfgHttpAsync baseEnv = .ok .httpAsyncNoop)
    ∧ (cacheRemaining cfgHttpAsync baseEnv ["k"] ≠ []
        → mainRun cfgHttpAsync baseEnv = .error .zeroDivision) :=
  c7_http_async_amended cfgHttpAsync baseEnv ["k"] rfl rfl rfl rfl
    (by decide) (by decide)

/-- C8 amended, witness: five batches at `commit_interval = 2` — two commits
have occurred (after batches 3 and 5) and nothing is left uncommitted. -/
theorem c8_commit_cadence_amended_witness :
    (handlerFinal Nat 2 [0, 0, 0, 0, 0]).persisted = [0, 0, 0, 0, 0]
    ∧ (handlerFinal Nat 2 [0, 0, 0, 0, 0]).commitCount
        = (([0, 0, 0, 0, 0] : List Nat).length - 1) / 2
    ∧ (handlerFinal Nat 2 [0, 0, 0, 0, 0]).persisted.length
        - (handlerFinal Nat 2 [0, 0, 0, 0, 0]).committed ≤ 2
    ∧ (([0, 0, 0, 0, 0] : List Nat).length = 2
        → (handlerFinal Nat 2 [0, 0, 0, 0, 0]).commitCount = 0) :=
  c8_commit_cadence_amended Nat 2 (by decide) [0, 0, 0, 0, 0]

end GoogleScraper
